import Mathlib

/-
Verification of the news_scraper location pipeline (processing.py):
gazetteer matching, geocoding with cache and retry, electoral-boundary
constituency lookup, and coordinate-based clustering.

Conventions of the shallow embedding:
* Python floats are modelled as rationals.  Formatting a coordinate with
  "%.5f" (the grouping key) is modelled by rounding value*100000 to an
  integer together with a sign bit, since a negative value formats with
  a leading minus sign even when the rounded magnitude is zero.
* The regex search of extract_locations_from_text uses, per gazetteer
  entry LIT, the pattern (?i)(?<!\w)LIT(?!\w) on the escaped literal:
  re.search succeeds iff the literal occurs case-insensitively at some
  position whose neighbouring characters are not word characters.  The
  class \w is modelled for the ASCII alphabet (letters, digits, _).
* The external Nominatim geocoder is an oracle from (query string, call
  index) to an outcome; the module-level GEOCODING_CACHE dict and the
  number of outbound network calls form an explicit state record that
  is threaded through the pipeline.
* The geopandas boundary layer is a list of rows, each carrying the
  name-column value, the bounding-box test used by the spatial index,
  and the exact polygon-containment test.
-/

namespace NewsScraper

/-! ### Gazetteer matcher: extract_locations_from_text (processing.py lines 78-87) -/

/-- ASCII model of the regex class \w: letters, digits and underscore. -/
def isWordChar (c : Char) : Bool := c.isAlphanum || c = '_'

/-- Case-insensitive test that the literal `loc` is a prefix of `ts`,
modelling case-insensitive matching of the escaped literal. -/
def ciMatchesFront : List Char → List Char → Bool
  | [], _ => true
  | _ :: _, [] => false
  | a :: as, b :: bs => decide (a.toLower = b.toLower) && ciMatchesFront as bs

/-- The pattern (?i)(?<!\w)loc(?!\w) matches `text` at start position `i`:
the character before position `i` (if any) is not a word character, the
literal matches case-insensitively at `i`, and the character directly
after the matched literal (if any) is not a word character. -/
def regexMatchAt (loc text : List Char) (i : Nat) : Bool :=
  (match (text.take i).getLast? with
   | none => true
   | some c => !isWordChar c)
  && ciMatchesFront loc (text.drop i)
  && (match (text.drop (i + loc.length)).head? with
      | none => true
      | some c => !isWordChar c)

/-- re.search of the word-boundary-anchored case-insensitive literal
pattern: some start position of `text` matches. -/
def reSearch (loc text : List Char) : Bool :=
  (List.range (text.length + 1)).any (fun i => regexMatchAt loc text i)

/-- processing.py lines 78-87: for each gazetteer entry build the
pattern (?i)(?<!\w)escaped(?!\w) and collect the entries for which
re.search succeeds; the Python set is modelled as a deduplicated list. -/
def extract_locations_from_text (text : String) (known_locations : List String) :
    List String :=
  (known_locations.filter (fun loc => reSearch loc.data text.data)).dedup

/-- Spec-side predicate, from the spec's words: the entry occurs in the
text as a case-insensitive whole-word match — at some position `i` the
lower-cased text segment equals the lower-cased entry, and the adjacent
characters on both sides (when they exist) are not word characters. -/
def OccursWholeWord (loc text : List Char) : Prop :=
  ∃ i, i + loc.length ≤ text.length ∧
    ((text.drop i).take loc.length).map Char.toLower = loc.map Char.toLower ∧
    (∀ c, (text.take i).getLast? = some c → isWordChar c = false) ∧
    (∀ c, (text.drop (i + loc.length)).head? = some c → isWordChar c = false)

lemma ciMatchesFront_iff (loc : List Char) : ∀ ts : List Char,
    ciMatchesFront loc ts = true ↔
      loc.length ≤ ts.length ∧ (ts.take loc.length).map Char.toLower = loc.map Char.toLower := by
  induction loc with
  | nil =>
      intro ts
      simp [ciMatchesFront]
  | cons a as ih =>
      intro ts
      cases ts with
      | nil => simp [ciMatchesFront]
      | cons b bs =>
          simp only [ciMatchesFront, Bool.and_eq_true, decide_eq_true_eq, ih bs,
            List.length_cons, List.take_succ_cons, List.map_cons, List.cons.injEq]
          constructor
          · rintro ⟨h1, h2, h3⟩
            exact ⟨Nat.succ_le_succ h2, h1.symm, h3⟩
          · rintro ⟨h1, h2, h3⟩
            exact ⟨h2.symm, Nat.le_of_succ_le_succ h1, h3⟩

lemma boundary_match_iff (o : Option Char) :
    (match o with
     | none => true
     | some c => !isWordChar c) = true ↔ (∀ c, o = some c → isWordChar c = false) := by
  cases o <;> simp

lemma regexMatchAt_iff (loc text : List Char) (i : Nat) (hi : i ≤ text.length) :
    regexMatchAt loc text i = true ↔
      (i + loc.length ≤ text.length ∧
        ((text.drop i).take loc.length).map Char.toLower = loc.map Char.toLower ∧
        (∀ c, (text.take i).getLast? = some c → isWordChar c = false) ∧
        (∀ c, (text.drop (i + loc.length)).head? = some c → isWordChar c = false)) := by
  unfold regexMatchAt
  simp only [Bool.and_eq_true, boundary_match_iff, ciMatchesFront_iff, List.length_drop]
  constructor
  · rintro ⟨⟨hpre, ⟨hlen, hseg⟩⟩, hpost⟩
    exact ⟨by omega, hseg, hpre, hpost⟩
  · rintro ⟨hlen, hseg, hpre, hpost⟩
    exact ⟨⟨hpre, ⟨by omega, hseg⟩⟩, hpost⟩

lemma reSearch_iff (loc text : List Char) :
    reSearch loc text = true ↔ OccursWholeWord loc text := by
  unfold reSearch OccursWholeWord
  rw [List.any_eq_true]
  constructor
  · rintro ⟨i, hmem, hmatch⟩
    have hi : i ≤ text.length := by
      have := List.mem_range.mp hmem
      omega
    exact ⟨i, (regexMatchAt_iff loc text i hi).mp hmatch⟩
  · rintro ⟨i, hcond⟩
    have hi : i ≤ text.length := by omega
    exact ⟨i, List.mem_range.mpr (by omega), (regexMatchAt_iff loc text i hi).mpr hcond⟩

/-- C2: extract_locations_from_text returns exactly the set of gazetteer
entries that occur in the text as case-insensitive whole-word matches
(entries occurring only inside a larger word are excluded), and the
result is duplicate-free.  The function is pure, hence deterministic and
side-effect free. -/
theorem extract_locations_characterization (text : String) (known : List String) :
    (∀ loc, loc ∈ extract_locations_from_text text known ↔
      loc ∈ known ∧ OccursWholeWord loc.data text.data)
    ∧ (extract_locations_from_text text known).Nodup := by
  constructor
  · intro loc
    unfold extract_locations_from_text
    rw [List.mem_dedup, List.mem_filter, reSearch_iff]
  · exact List.nodup_dedup _

/-- Witness for C2 on the spec's own examples: "Jurong" does not occur
whole-word in "Jurongville news" but does occur in "near Jurong today". -/
theorem extract_locations_characterization_witness :
    ¬ OccursWholeWord "Jurong".data "Jurongville news".data
    ∧ OccursWholeWord "Jurong".data "near Jurong today".data := by
  constructor
  · intro hocc
    have h := (extract_locations_characterization "Jurongville news" ["Jurong"]).1 "Jurong"
    have hmem : "Jurong" ∈ extract_locations_from_text "Jurongville news" ["Jurong"] :=
      h.mpr ⟨by decide, hocc⟩
    have : ¬ "Jurong" ∈ extract_locations_from_text "Jurongville news" ["Jurong"] := by decide
    exact this hmem
  · have h := (extract_locations_characterization "near Jurong today" ["Jurong"]).1 "Jurong"
    exact (h.mp (by decide)).2

/-! ### Geocoder client: geocode_location (processing.py lines 91-127) -/

/-- Resolved coordinates (latitude, longitude). -/
abbrev Coords := Rat × Rat

/-- Outcome of one call to geolocator.geocode: a result object with
coordinates, None, or one of the exception classes raised. -/
inductive GeoResult where
  | found (lat lon : Rat)
  | notFound
  | timedOut
  | serviceError
  | unexpectedError
deriving DecidableEq

/-- The external geocoding service: maps the query string and the index
of the outbound call (how many calls were made before) to an outcome. -/
abbrev GeoOracle := String → Nat → GeoResult

/-- Process-wide geocoding state: the GEOCODING_CACHE dict (an
association list, later bindings in front) plus the running count of
outbound geolocator.geocode calls. -/
structure GeoState where
  cache : List (String × Option Coords)
  calls : Nat
deriving DecidableEq

/-- Dict lookup in GEOCODING_CACHE: first binding of the key wins. -/
def cacheLookup (cache : List (String × Option Coords)) (k : String) :
    Option (Option Coords) :=
  (cache.find? (fun p => decide (p.1 = k))).map Prod.snd

/-- Recursion core of geocode_location (processing.py lines 95-127).
The source retries recursively with an attempt counter while
attempt < max_attempts; here the recursion runs on the number of
retries still allowed, fuel = max_attempts - attempt, which makes it
structural (so it computes by reduction): a timeout retries exactly
when fuel > 0, i.e. when attempt < max_attempts. -/
def geocode_go (oracle : GeoOracle) (location_name : String) :
    Nat → GeoState → Option Coords × GeoState
  | fuel, st =>
    let cache_key := location_name.toLower
    match cacheLookup st.cache cache_key with
    | some v => (v, st)
    | none =>
      let query := location_name ++ ", Singapore"
      match oracle query st.calls with
      | .found la lo =>
          (some (la, lo),
           { cache := (cache_key, some (la, lo)) :: st.cache, calls := st.calls + 1 })
      | .notFound =>
          (none, { cache := (cache_key, none) :: st.cache, calls := st.calls + 1 })
      | .timedOut =>
          match fuel with
          | fuel' + 1 =>
              geocode_go oracle location_name fuel'
                { cache := st.cache, calls := st.calls + 1 }
          | 0 =>
              (none, { cache := (cache_key, none) :: st.cache, calls := st.calls + 1 })
      | .serviceError =>
          (none, { cache := (cache_key, none) :: st.cache, calls := st.calls + 1 })
      | .unexpectedError =>
          (none, { cache := (cache_key, none) :: st.cache, calls := st.calls + 1 })

/-- processing.py lines 95-127.  Cache check on the lower-cased name;
on a miss one outbound call; a timeout retries while
attempt < max_attempts; every terminal outcome writes the result into
the cache and returns it.  Entry point uses attempt = 1, max_attempts = 3. -/
def geocode_location (oracle : GeoOracle) (location_name : String)
    (attempt max_attempts : Nat) (st : GeoState) : Option Coords × GeoState :=
  geocode_go oracle location_name (max_attempts - attempt) st

lemma cacheLookup_cons_self (cache : List (String × Option Coords)) (k : String)
    (v : Option Coords) : cacheLookup ((k, v) :: cache) k = some v := by
  simp [cacheLookup, List.find?_cons_of_pos]

/-- A cache hit returns the cached value with the state untouched. -/
lemma geocode_go_hit (oracle : GeoOracle) (name : String)
    (fuel : Nat) (st : GeoState) (v : Option Coords)
    (h : cacheLookup st.cache name.toLower = some v) :
    geocode_go oracle name fuel st = (v, st) := by
  unfold geocode_go
  simp [h]

/-- A cache hit returns the cached value with the state untouched. -/
lemma geocode_location_hit (oracle : GeoOracle) (name : String)
    (attempt max_attempts : Nat) (st : GeoState) (v : Option Coords)
    (h : cacheLookup st.cache name.toLower = some v) :
    geocode_location oracle name attempt max_attempts st = (v, st) :=
  geocode_go_hit oracle name _ st v h

/-- After any resolution the cache holds the returned value under the
lower-cased name. -/
lemma geocode_go_cache_writes (oracle : GeoOracle) (name : String) :
    ∀ (fuel : Nat) (st : GeoState),
    cacheLookup (geocode_go oracle name fuel st).2.cache name.toLower
      = some (geocode_go oracle name fuel st).1 := by
  intro fuel
  induction fuel with
  | zero =>
      intro st
      unfold geocode_go
      cases hc : cacheLookup st.cache name.toLower with
      | some v => simp [hc]
      | none =>
          cases ho : oracle (name ++ ", Singapore") st.calls with
          | found la lo => simp [hc, ho, cacheLookup_cons_self]
          | notFound => simp [hc, ho, cacheLookup_cons_self]
          | timedOut => simp [hc, ho, cacheLookup_cons_self]
          | serviceError => simp [hc, ho, cacheLookup_cons_self]
          | unexpectedError => simp [hc, ho, cacheLookup_cons_self]
  | succ n ih =>
      intro st
      unfold geocode_go
      cases hc : cacheLookup st.cache name.toLower with
      | some v => simp [hc]
      | none =>
          cases ho : oracle (name ++ ", Singapore") st.calls with
          | found la lo => simp [hc, ho, cacheLookup_cons_self]
          | notFound => simp [hc, ho, cacheLookup_cons_self]
          | timedOut =>
              simpa [hc, ho] using ih { cache := st.cache, calls := st.calls + 1 }
          | serviceError => simp [hc, ho, cacheLookup_cons_self]
          | unexpectedError => simp [hc, ho, cacheLookup_cons_self]

lemma geocode_cache_writes (oracle : GeoOracle) (name : String)
    (attempt max_attempts : Nat) (st : GeoState) :
    cacheLookup (geocode_location oracle name attempt max_attempts st).2.cache
        name.toLower
      = some (geocode_location oracle name attempt max_attempts st).1 :=
  geocode_go_cache_writes oracle name (max_attempts - attempt) st

/-- C4: resolving the same place name twice issues no outbound call for
the second resolution — the second call hits the cache keyed by the
lower-cased name, leaves the state (call count included) untouched, and
returns exactly the first call's result. -/
theorem geocode_location_idempotent (oracle : GeoOracle) (name : String)
    (st : GeoState) :
    (geocode_location oracle name 1 3
        (geocode_location oracle name 1 3 st).2).1
      = (geocode_location oracle name 1 3 st).1
    ∧ (geocode_location oracle name 1 3
        (geocode_location oracle name 1 3 st).2).2
      = (geocode_location oracle name 1 3 st).2 := by
  have h := geocode_location_hit oracle name 1 3
    (geocode_location oracle name 1 3 st).2
    (geocode_location oracle name 1 3 st).1
    (geocode_cache_writes oracle name 1 3 st)
  exact ⟨by rw [h], by rw [h]⟩

/-- C8: geocode_location is a total function (the embedding returns on
every path, matching "must not throw"): every outcome yields coords or
none, that same value is written into the cache under the lower-cased
name, and any later resolution of the same name in the same process
returns it from the cache without touching the state. -/
theorem geocode_location_total_caches (oracle : GeoOracle) (name : String)
    (st : GeoState) :
    cacheLookup (geocode_location oracle name 1 3 st).2.cache name.toLower
      = some (geocode_location oracle name 1 3 st).1
    ∧ (∀ (oracle2 : GeoOracle) (a m : Nat),
        geocode_location oracle2 name a m (geocode_location oracle name 1 3 st).2
          = ((geocode_location oracle name 1 3 st).1,
             (geocode_location oracle name 1 3 st).2)) := by
  refine ⟨geocode_cache_writes oracle name 1 3 st, ?_⟩
  intro oracle2 a m
  exact geocode_location_hit oracle2 name a m _ _ (geocode_cache_writes oracle name 1 3 st)

/-- C3: for a name not in the cache, a geocoder that times out on every
attempt is called exactly 3 times (hence at most 3) and the resolution
returns none; a service error or unexpected exception is never retried:
exactly one outbound call, returning none. -/
theorem geocode_location_retry_bound (oracle : GeoOracle) (name : String)
    (st : GeoState) (hmiss : cacheLookup st.cache name.toLower = none) :
    ((∀ q n, oracle q n = .timedOut) →
      (geocode_location oracle name 1 3 st).1 = none
      ∧ (geocode_location oracle name 1 3 st).2.calls = st.calls + 3)
    ∧ ((oracle (name ++ ", Singapore") st.calls = .serviceError
        ∨ oracle (name ++ ", Singapore") st.calls = .unexpectedError) →
      (geocode_location oracle name 1 3 st).1 = none
      ∧ (geocode_location oracle name 1 3 st).2.calls = st.calls + 1) := by
  constructor
  · intro hto
    have h0 : geocode_go oracle name 0
        { cache := st.cache, calls := st.calls + 2 }
        = (none, { cache := (name.toLower, none) :: st.cache, calls := st.calls + 3 }) := by
      unfold geocode_go
      simp [hmiss, hto]
    have h1 : geocode_go oracle name 1
        { cache := st.cache, calls := st.calls + 1 }
        = (none, { cache := (name.toLower, none) :: st.cache, calls := st.calls + 3 }) := by
      unfold geocode_go
      simp only [hmiss, hto]
      simpa using h0
    have h2 : geocode_go oracle name 2 st
        = (none, { cache := (name.toLower, none) :: st.cache, calls := st.calls + 3 }) := by
      unfold geocode_go
      simp only [hmiss, hto]
      simpa using h1
    show (geocode_go oracle name 2 st).1 = none
      ∧ (geocode_go oracle name 2 st).2.calls = st.calls + 3
    rw [h2]
    exact ⟨rfl, rfl⟩
  · intro herr
    rcases herr with h | h <;>
    · show (geocode_go oracle name 2 st).1 = none
        ∧ (geocode_go oracle name 2 st).2.calls = st.calls + 1
      unfold geocode_go
      simp [hmiss, h]

/-- Witness for C3 at a concrete state: with an empty cache, an
always-timing-out oracle yields none after exactly 3 calls, and a
service-error oracle yields none after exactly 1 call. -/
theorem geocode_location_retry_bound_witness :
    ((geocode_location (fun _ _ => .timedOut) "Jurong" 1 3 ⟨[], 0⟩).1 = none
      ∧ (geocode_location (fun _ _ => .timedOut) "Jurong" 1 3 ⟨[], 0⟩).2.calls = 0 + 3)
    ∧ ((geocode_location (fun _ _ => .serviceError) "Jurong" 1 3 ⟨[], 0⟩).1 = none
      ∧ (geocode_location (fun _ _ => .serviceError) "Jurong" 1 3 ⟨[], 0⟩).2.calls = 0 + 1) := by
  constructor
  · exact (geocode_location_retry_bound (fun _ _ => .timedOut) "Jurong" ⟨[], 0⟩ rfl).1
      (fun _ _ => rfl)
  · exact (geocode_location_retry_bound (fun _ _ => .serviceError) "Jurong" ⟨[], 0⟩ rfl).2
      (Or.inl rfl)

/-! ### Boundary index: load_electoral_boundaries and
find_constituency_for_point (processing.py lines 31-75 and 131-153) -/

/-- One row of the loaded boundary GeoDataFrame: the value of the
configured name column, the bounding-box intersection test the spatial
index answers for a query point, and the exact polygon containment
test.  Points are in geometry order (x = longitude, y = latitude). -/
structure BRow where
  name : String
  bboxContains : Rat × Rat → Bool
  geomContains : Rat × Rat → Bool

/-- Environment of the load step: whether geopandas imported, whether
the boundaries file exists, the parse result (none models an exception
from gpd.read_file, some gives the columns and rows), and the
configured CONSTITUENCY_COLUMN_NAME. -/
structure BoundaryEnv where
  geopandas_available : Bool
  file_exists : Bool
  read_result : Option (List String × List BRow)
  constituency_column : String

/-- processing.py lines 31-75: returns the BOUNDARIES_LOADED_SUCCESSFULLY
flag together with the boundaries_gdf global (none on any failure:
missing library, missing file, read exception, or missing name column).
CRS normalization only reprojects geometry and is absorbed into the rows. -/
def load_electoral_boundaries (env : BoundaryEnv) : Bool × Option (List BRow) :=
  if ¬ env.geopandas_available then (false, none)
  else if ¬ env.file_exists then (false, none)
  else
    match env.read_result with
    | none => (false, none)
    | some (cols, rows) =>
        if env.constituency_column ∉ cols then (false, none)
        else (true, some rows)

/-- processing.py lines 131-153: guard on the load flag and the globals,
build the point in (lon, lat) order, get bounding-box candidates from
the spatial index, filter them by exact containment and return the name
of the first precise match; empty candidate set or no precise match
gives none. -/
def find_constituency_for_point (loaded : Bool) (gdf : Option (List BRow))
    (lat lon : Rat) : Option String :=
  if loaded = false ∨ gdf.isNone then none
  else
    match gdf with
    | none => none
    | some rows =>
        let point : Rat × Rat := (lon, lat)
        let possible_matches := rows.filter (fun r => r.bboxContains point)
        if possible_matches.isEmpty then none
        else
          match possible_matches.filter (fun r => r.geomContains point) with
          | [] => none
          | r :: _ => some r.name

/-- C5: when the boundary load step fails (missing library or file,
parse exception, or missing name column), every subsequent query
returns none — and the embedding is a total function, so no exception
is raised. -/
theorem load_failure_disables_lookup (env : BoundaryEnv)
    (h : (load_electoral_boundaries env).1 = false) (lat lon : Rat) :
    find_constituency_for_point (load_electoral_boundaries env).1
      (load_electoral_boundaries env).2 lat lon = none := by
  rw [find_constituency_for_point.eq_def, h]
  simp

/-- Witness for C5: a missing boundaries file disables the lookup for a
concrete query point. -/
theorem load_failure_disables_lookup_witness :
    find_constituency_for_point
      (load_electoral_boundaries
        ⟨true, false, some ([], []), "Name"⟩).1
      (load_electoral_boundaries
        ⟨true, false, some ([], []), "Name"⟩).2
      (13 : Rat) (1038 : Rat) = none :=
  load_failure_disables_lookup ⟨true, false, some ([], []), "Name"⟩ rfl 13 1038

/-- C9: with boundaries loaded, the lookup takes its public arguments
latitude-first but builds the geometry point longitude-first; given
that every exactly-containing polygon also passes its bounding-box test
(true of real bounding boxes), the two-stage candidate pruning is
equivalent to exact containment: the result is the name of the first
row whose polygon contains the point (lon, lat), and none when no row
contains it or no candidates exist. -/
theorem find_constituency_spec (rows : List BRow) (lat lon : Rat)
    (hbb : ∀ r ∈ rows, r.geomContains (lon, lat) = true →
      r.bboxContains (lon, lat) = true) :
    find_constituency_for_point true (some rows) lat lon
      = ((rows.filter (fun r => r.geomContains (lon, lat))).head?).map BRow.name := by
  rw [find_constituency_for_point]
  simp only [Bool.true_eq_false, Option.isNone_some, or_self, if_false]
  have hfilter : (rows.filter (fun r => r.bboxContains (lon, lat))).filter
      (fun r => r.geomContains (lon, lat))
      = rows.filter (fun r => r.geomContains (lon, lat)) := by
    rw [List.filter_filter]
    apply List.filter_congr
    intro r hr
    cases hg : r.geomContains (lon, lat)
    · simp
    · simp [hbb r hr hg]
  by_cases hempty : (rows.filter (fun r => r.bboxContains (lon, lat))).isEmpty
  · have hgeom : rows.filter (fun r => r.geomContains (lon, lat)) = [] := by
      rw [← hfilter, List.isEmpty_iff.mp hempty]
      rfl
    simp [hempty, hgeom]
  · simp only [hempty, if_false, hfilter]
    cases rows.filter (fun r => r.geomContains (lon, lat)) with
    | nil => simp
    | cons r rest => simp

/-- Witness for C9: one all-containing row resolves a concrete query to
its name. -/
theorem find_constituency_spec_witness :
    find_constituency_for_point true
      (some [⟨"Aljunied", fun _ => true, fun _ => true⟩]) (13 : Rat) (1038 : Rat)
      = some "Aljunied" := by
  have h := find_constituency_spec [⟨"Aljunied", fun _ => true, fun _ => true⟩]
    13 1038 (by intro r hr hg; cases List.mem_singleton.mp hr; rfl)
  simpa using h

/-! ### Cluster builder: process_and_group_articles
(processing.py lines 157-242) -/

/-- An input article record from the fetch step (title, url, summary,
source; the output cluster keeps exactly these four fields). -/
structure Article where
  title : String
  url : String
  summary : String
  source : String
deriving DecidableEq

/-- An article that resolved: the input record spread together with the
winning gazetteer name and its coordinates (lines 190-194). -/
structure LocatedArticle where
  article : Article
  location_name : String
  coords : Rat × Rat
deriving DecidableEq

/-- One component of the grouping key f"{lat:.5f},{lon:.5f}": the value
rounded to 5 decimals (as an integer count of 1e-5) together with the
sign of the value, since "%.5f" of a negative value keeps the minus
sign even when the rounded magnitude is 0.  The rounding is computed by
integer floor division so that it evaluates by kernel reduction;
fmt5_fst_eq_round proves the first component equals round (x * 100000). -/
def fmt5 (x : Rat) : Int × Bool :=
  (Int.fdiv (2 * (x.num * 100000) + (x.den : Int)) (2 * (x.den : Int)),
   decide (x < 0))

lemma fmt5_fst_eq_round (x : Rat) : (fmt5 x).1 = round (x * 100000) := by
  show Int.fdiv (2 * (x.num * 100000) + (x.den : Int)) (2 * (x.den : Int)) = _
  rw [round_eq]
  set n := x.num with hn
  set d := x.den with hd
  have hd0 : d ≠ 0 := x.den_nz
  have hx : ((n : ℚ)) / ((d : ℚ)) = x := Rat.num_div_den x
  rw [← hx]
  have hdq : (d : ℚ) ≠ 0 := Nat.cast_ne_zero.mpr hd0
  have h2 : (n : ℚ) / (d : ℚ) * 100000 + 1 / 2
      = ((2 * (n * 100000) + (d : Int) : Int) : ℚ) / (((2 * d : ℕ) : ℕ) : ℚ) := by
    push_cast
    field_simp
    ring
  rw [h2, Rat.floor_intCast_div_natCast,
    Int.fdiv_eq_ediv _ (by positivity)]
  norm_cast

/-- The grouping key of line 206, as the pair of formatted components. -/
abbrev CoordKey := (Int × Bool) × (Int × Bool)

def coordKey (lat lon : Rat) : CoordKey := (fmt5 lat, fmt5 lon)

def keyOf (a : LocatedArticle) : CoordKey := coordKey a.coords.1 a.coords.2

/-- The dict appended to a cluster's articles list (lines 221-227):
title, url, summary and source of the located article. -/
def outOf (a : LocatedArticle) : Article :=
  { title := a.article.title, url := a.article.url,
    summary := a.article.summary, source := a.article.source }

/-- The value stored in grouped_by_coords for one key (lines 211-217). -/
structure ClusterData where
  latitude : Rat
  longitude : Rat
  location_name : String
  constituency : Option String
  articles : List Article
deriving DecidableEq

/-- Lines 219-227: append the article unless an entry with the same url
is already present. -/
def addArticle (cd : ClusterData) (a : LocatedArticle) : ClusterData :=
  if cd.articles.any (fun x => decide (x.url = a.article.url)) then cd
  else { cd with articles := cd.articles ++ [outOf a] }

/-- Insertion-ordered dict grouped_by_coords, as an association list. -/
def lookupKey (l : List (CoordKey × ClusterData)) (k : CoordKey) :
    Option ClusterData :=
  (l.find? (fun p => decide (p.1 = k))).map Prod.snd

def containsKey (l : List (CoordKey × ClusterData)) (k : CoordKey) : Bool :=
  l.any (fun p => decide (p.1 = k))

def updateAssoc (l : List (CoordKey × ClusterData)) (k : CoordKey)
    (f : ClusterData → ClusterData) : List (CoordKey × ClusterData) :=
  l.map (fun p => if p.1 = k then (p.1, f p.2) else p)

/-- Lines 208-217: the value a fresh key is bound to — raw coordinates
of the triggering article, its location name, the constituency computed
once by find_constituency_for_point, and an empty articles list. -/
def newClusterData (loaded : Bool) (gdf : Option (List BRow))
    (a : LocatedArticle) : ClusterData :=
  { latitude := a.coords.1, longitude := a.coords.2,
    location_name := a.location_name,
    constituency := find_constituency_for_point loaded gdf a.coords.1 a.coords.2,
    articles := [] }

/-- One iteration of the grouping loop (lines 203-227): bind the key if
absent, then url-deduplicated append of the article. -/
def groupStep (loaded : Bool) (gdf : Option (List BRow))
    (acc : List (CoordKey × ClusterData)) (a : LocatedArticle) :
    List (CoordKey × ClusterData) :=
  let k := keyOf a
  let acc1 := if containsKey acc k then acc
              else acc ++ [(k, newClusterData loaded gdf a)]
  updateAssoc acc1 k (fun cd => addArticle cd a)

def groupArticles (loaded : Bool) (gdf : Option (List BRow))
    (las : List LocatedArticle) : List (CoordKey × ClusterData) :=
  las.foldl (groupStep loaded gdf) []

/-- The grouping loop instrumented with a log of the arguments of each
find_constituency_for_point call, which happens exactly in the
fresh-key branch. -/
def groupStepLogged (loaded : Bool) (gdf : Option (List BRow))
    (s : List (CoordKey × ClusterData) × List (Rat × Rat))
    (a : LocatedArticle) : List (CoordKey × ClusterData) × List (Rat × Rat) :=
  let k := keyOf a
  if containsKey s.1 k then
    (updateAssoc s.1 k (fun cd => addArticle cd a), s.2)
  else
    (updateAssoc (s.1 ++ [(k, newClusterData loaded gdf a)]) k
        (fun cd => addArticle cd a),
     s.2 ++ [(a.coords.1, a.coords.2)])

def groupArticlesLogged (loaded : Bool) (gdf : Option (List BRow))
    (las : List LocatedArticle) :
    List (CoordKey × ClusterData) × List (Rat × Rat) :=
  las.foldl (groupStepLogged loaded gdf) ([], [])

/-- The located articles of `las` whose coordinates format to key `k`. -/
def contributors (k : CoordKey) (las : List LocatedArticle) :
    List LocatedArticle :=
  las.filter (fun a => decide (keyOf a = k))

/-- An output cluster record (lines 230-239). -/
structure Cluster where
  latitude : Rat
  longitude : Rat
  location_name : String
  constituency : Option String
  article_count : Nat
  articles : List Article
deriving DecidableEq

def toCluster (cd : ClusterData) : Cluster :=
  { latitude := cd.latitude, longitude := cd.longitude,
    location_name := cd.location_name, constituency := cd.constituency,
    article_count := cd.articles.length, articles := cd.articles }

/-- Line 169: the text scanned for gazetteer entries. -/
def articleText (a : Article) : String := a.title ++ " " ++ a.summary

/-- Lines 176-186: geocode the matched names in order and stop at the
first success. -/
def tryGeocodeLocations (oracle : GeoOracle) (locs : List String)
    (st : GeoState) : Option (String × Coords) × GeoState :=
  match locs with
  | [] => (none, st)
  | loc :: rest =>
      match geocode_location oracle loc 1 3 st with
      | (some c, st') => (some (loc, c), st')
      | (none, st') => tryGeocodeLocations oracle rest st'

/-- Lines 168-196: resolve one article — scan its text, geocode the
matches, and build the located record on success. -/
def resolveArticle (oracle : GeoOracle) (gaz : List String) (st : GeoState)
    (a : Article) : Option LocatedArticle × GeoState :=
  match tryGeocodeLocations oracle
      (extract_locations_from_text (articleText a) gaz) st with
  | (some (nm, c), st') => (some ⟨a, nm, c⟩, st')
  | (none, st') => (none, st')

/-- Lines 163-199: the resolution pass over all articles; unresolved
articles are dropped. -/
def locateArticles (oracle : GeoOracle) (gaz : List String) :
    GeoState → List Article → List LocatedArticle × GeoState
  | st, [] => ([], st)
  | st, a :: rest =>
      match resolveArticle oracle gaz st a with
      | (some la, st') =>
          let r := locateArticles oracle gaz st' rest
          (la :: r.1, r.2)
      | (none, st') => locateArticles oracle gaz st' rest

/-- processing.py lines 157-242: the full pipeline — resolve, group by
coordinate key, format the cluster list. -/
def process_and_group_articles (oracle : GeoOracle) (loaded : Bool)
    (gdf : Option (List BRow)) (gaz : List String) (st : GeoState)
    (articles : List Article) : List Cluster × GeoState :=
  let r := locateArticles oracle gaz st articles
  ((groupArticles loaded gdf r.1).map (fun p => toCluster p.2), r.2)

/-! ### Association-list lemmas for the grouping dict -/

lemma lookupKey_nil (k : CoordKey) : lookupKey [] k = none := rfl

lemma lookupKey_updateAssoc_self (l : List (CoordKey × ClusterData)) (k : CoordKey)
    (f : ClusterData → ClusterData) :
    lookupKey (updateAssoc l k f) k = (lookupKey l k).map f := by
  induction l with
  | nil => rfl
  | cons p rest ih =>
      by_cases h : p.1 = k
      · simp [updateAssoc, lookupKey, h, List.find?_cons_of_pos]
      · simp only [updateAssoc, List.map_cons, if_neg h]
        rw [lookupKey, List.find?_cons_of_neg _ (by simpa using h),
          lookupKey, List.find?_cons_of_neg _ (by simpa using h)]
        exact ih

lemma lookupKey_updateAssoc_ne (l : List (CoordKey × ClusterData)) (k' k : CoordKey)
    (f : ClusterData → ClusterData) (h : k' ≠ k) :
    lookupKey (updateAssoc l k' f) k = lookupKey l k := by
  induction l with
  | nil => rfl
  | cons p rest ih =>
      by_cases hp : p.1 = k'
      · subst hp
        simp only [updateAssoc, List.map_cons, if_pos rfl]
        rw [lookupKey, List.find?_cons_of_neg _ (by simpa using h),
          lookupKey, List.find?_cons_of_neg _ (by simpa using h)]
        exact ih
      · simp only [updateAssoc, List.map_cons, if_neg hp]
        by_cases hk : p.1 = k
        · simp [lookupKey, List.find?_cons_of_pos, hk]
        · rw [lookupKey, List.find?_cons_of_neg _ (by simpa using hk),
            lookupKey, List.find?_cons_of_neg _ (by simpa using hk)]
          exact ih

lemma lookupKey_append_self (l : List (CoordKey × ClusterData)) (k : CoordKey)
    (v : ClusterData) (h : lookupKey l k = none) :
    lookupKey (l ++ [(k, v)]) k = some v := by
  induction l with
  | nil => simp [lookupKey, List.find?_cons_of_pos]
  | cons p rest ih =>
      by_cases hp : p.1 = k
      · exfalso
        rw [lookupKey, List.find?_cons_of_pos _ (by simpa using hp)] at h
        simp at h
      · rw [lookupKey, List.find?_cons_of_neg _ (by simpa using hp)] at h
        rw [List.cons_append, lookupKey, List.find?_cons_of_neg _ (by simpa using hp)]
        exact ih h

lemma lookupKey_append_ne (l : List (CoordKey × ClusterData)) (k' k : CoordKey)
    (v : ClusterData) (h : k' ≠ k) :
    lookupKey (l ++ [(k', v)]) k = lookupKey l k := by
  induction l with
  | nil => simp [lookupKey, List.find?_cons_of_neg, h]
  | cons p rest ih =>
      by_cases hp : p.1 = k
      · simp [lookupKey, List.find?_cons_of_pos, hp]
      · rw [List.cons_append, lookupKey, List.find?_cons_of_neg _ (by simpa using hp),
          lookupKey, List.find?_cons_of_neg _ (by simpa using hp)]
        exact ih

lemma containsKey_iff_mem (l : List (CoordKey × ClusterData)) (k : CoordKey) :
    containsKey l k = true ↔ k ∈ l.map Prod.fst := by
  simp only [containsKey, List.any_eq_true, decide_eq_true_eq, List.mem_map]

lemma containsKey_eq_false_iff (l : List (CoordKey × ClusterData)) (k : CoordKey) :
    containsKey l k = false ↔ lookupKey l k = none := by
  rw [← Bool.not_eq_true, containsKey_iff_mem]
  simp only [lookupKey, Option.map_eq_none', List.find?_eq_none, decide_eq_true_eq,
    List.mem_map]
  constructor
  · intro h p hp he
    exact h ⟨p, hp, he⟩
  · rintro h ⟨p, hp, he⟩
    exact h p hp he

lemma lookupKey_isSome_of_mem (l : List (CoordKey × ClusterData)) (k : CoordKey)
    (h : k ∈ l.map Prod.fst) : ∃ cd, lookupKey l k = some cd := by
  rcases Option.eq_none_or_eq_some (lookupKey l k) with hn | hs
  · exfalso
    rw [← containsKey_eq_false_iff] at hn
    rw [← containsKey_iff_mem] at h
    rw [hn] at h
    cases h
  · exact hs

/-! ### Effect of one grouping step on the dict -/

lemma lookupKey_groupStep_ne (loaded : Bool) (gdf : Option (List BRow))
    (acc : List (CoordKey × ClusterData)) (a : LocatedArticle) (k : CoordKey)
    (h : keyOf a ≠ k) :
    lookupKey (groupStep loaded gdf acc a) k = lookupKey acc k := by
  simp only [groupStep]
  by_cases hc : containsKey acc (keyOf a) = true
  · rw [if_pos hc, lookupKey_updateAssoc_ne _ _ _ _ h]
  · rw [if_neg hc, lookupKey_updateAssoc_ne _ _ _ _ h, lookupKey_append_ne _ _ _ _ h]

lemma lookupKey_groupStep_some (loaded : Bool) (gdf : Option (List BRow))
    (acc : List (CoordKey × ClusterData)) (a : LocatedArticle) (cd : ClusterData)
    (h : lookupKey acc (keyOf a) = some cd) :
    lookupKey (groupStep loaded gdf acc a) (keyOf a) = some (addArticle cd a) := by
  simp only [groupStep]
  have hc : containsKey acc (keyOf a) = true := by
    rcases Bool.eq_false_or_eq_true (containsKey acc (keyOf a)) with ht | hf
    · exact ht
    · rw [containsKey_eq_false_iff] at hf
      rw [hf] at h
      cases h
  rw [if_pos hc, lookupKey_updateAssoc_self, h]
  rfl

lemma lookupKey_groupStep_none (loaded : Bool) (gdf : Option (List BRow))
    (acc : List (CoordKey × ClusterData)) (a : LocatedArticle)
    (h : lookupKey acc (keyOf a) = none) :
    lookupKey (groupStep loaded gdf acc a) (keyOf a)
      = some (addArticle (newClusterData loaded gdf a) a) := by
  simp only [groupStep]
  have hc : containsKey acc (keyOf a) = false := (containsKey_eq_false_iff _ _).mpr h
  rw [if_neg (by simp [hc]), lookupKey_updateAssoc_self, lookupKey_append_self _ _ _ h]
  rfl

/-! ### Characterization of the grouping fold -/

lemma contributors_cons_pos (k : CoordKey) (a : LocatedArticle)
    (las : List LocatedArticle) (h : keyOf a = k) :
    contributors k (a :: las) = a :: contributors k las := by
  simp [contributors, h]

lemma contributors_cons_neg (k : CoordKey) (a : LocatedArticle)
    (las : List LocatedArticle) (h : keyOf a ≠ k) :
    contributors k (a :: las) = contributors k las := by
  simp [contributors, h]

lemma lookupKey_foldl_some (loaded : Bool) (gdf : Option (List BRow)) :
    ∀ (las : List LocatedArticle) (acc : List (CoordKey × ClusterData))
      (k : CoordKey) (cd : ClusterData), lookupKey acc k = some cd →
      lookupKey (las.foldl (groupStep loaded gdf) acc) k
        = some ((contributors k las).foldl addArticle cd) := by
  intro las
  induction las with
  | nil =>
      intro acc k cd h
      simpa [contributors] using h
  | cons a rest ih =>
      intro acc k cd h
      rw [List.foldl_cons]
      by_cases hk : keyOf a = k
      · subst hk
        rw [contributors_cons_pos _ _ _ rfl, List.foldl_cons]
        exact ih _ _ _ (lookupKey_groupStep_some loaded gdf acc a cd h)
      · rw [contributors_cons_neg _ _ _ hk]
        exact ih _ _ _ (by rw [lookupKey_groupStep_ne loaded gdf acc a k hk]; exact h)

lemma lookupKey_foldl_none (loaded : Bool) (gdf : Option (List BRow)) :
    ∀ (las : List LocatedArticle) (acc : List (CoordKey × ClusterData))
      (k : CoordKey), lookupKey acc k = none →
      lookupKey (las.foldl (groupStep loaded gdf) acc) k
        = match contributors k las with
          | [] => none
          | a0 :: cs => some ((a0 :: cs).foldl addArticle
              (newClusterData loaded gdf a0)) := by
  intro las
  induction las with
  | nil =>
      intro acc k h
      simpa [contributors] using h
  | cons a rest ih =>
      intro acc k h
      rw [List.foldl_cons]
      by_cases hk : keyOf a = k
      · subst hk
        rw [contributors_cons_pos _ _ _ rfl]
        have hstep := lookupKey_groupStep_none loaded gdf acc a h
        rw [lookupKey_foldl_some loaded gdf rest _ _ _ hstep]
        rfl
      · rw [contributors_cons_neg _ _ _ hk]
        exact ih _ _ (by rw [lookupKey_groupStep_ne loaded gdf acc a k hk]; exact h)

/-! ### Keys of the grouping dict -/

lemma keys_updateAssoc (l : List (CoordKey × ClusterData)) (k : CoordKey)
    (f : ClusterData → ClusterData) :
    (updateAssoc l k f).map Prod.fst = l.map Prod.fst := by
  unfold updateAssoc
  rw [List.map_map]
  apply List.map_congr_left
  intro p _
  by_cases h : p.1 = k <;> simp [h]

lemma keys_groupStep (loaded : Bool) (gdf : Option (List BRow))
    (acc : List (CoordKey × ClusterData)) (a : LocatedArticle) :
    (groupStep loaded gdf acc a).map Prod.fst
      = if containsKey acc (keyOf a) = true then acc.map Prod.fst
        else acc.map Prod.fst ++ [keyOf a] := by
  simp only [groupStep]
  by_cases hc : containsKey acc (keyOf a) = true
  · rw [if_pos hc, if_pos hc, keys_updateAssoc]
  · rw [if_neg hc, if_neg hc, keys_updateAssoc, List.map_append]
    rfl

lemma keys_foldl_mem (loaded : Bool) (gdf : Option (List BRow)) :
    ∀ (las : List LocatedArticle) (acc : List (CoordKey × ClusterData)) (k : CoordKey),
      k ∈ (las.foldl (groupStep loaded gdf) acc).map Prod.fst
        ↔ k ∈ acc.map Prod.fst ∨ k ∈ las.map keyOf := by
  intro las
  induction las with
  | nil =>
      intro acc k
      simp only [List.foldl_nil, List.map_nil, List.not_mem_nil, or_false]
  | cons a rest ih =>
      intro acc k
      rw [List.foldl_cons, ih, keys_groupStep]
      by_cases hc : containsKey acc (keyOf a) = true
      · rw [if_pos hc]
        simp only [List.map_cons, List.mem_cons]
        constructor
        · rintro (h | h)
          · exact Or.inl h
          · exact Or.inr (Or.inr h)
        · rintro (h | h | h)
          · exact Or.inl h
          · subst h
            exact Or.inl ((containsKey_iff_mem _ _).mp hc)
          · exact Or.inr h
      · rw [if_neg hc]
        simp only [List.mem_append, List.mem_singleton, List.map_cons, List.mem_cons]
        tauto

lemma keys_foldl_nodup (loaded : Bool) (gdf : Option (List BRow)) :
    ∀ (las : List LocatedArticle) (acc : List (CoordKey × ClusterData)),
      (acc.map Prod.fst).Nodup →
      ((las.foldl (groupStep loaded gdf) acc).map Prod.fst).Nodup := by
  intro las
  induction las with
  | nil =>
      intro acc h
      exact h
  | cons a rest ih =>
      intro acc h
      rw [List.foldl_cons]
      apply ih
      rw [keys_groupStep]
      by_cases hc : containsKey acc (keyOf a) = true
      · rw [if_pos hc]
        exact h
      · rw [if_neg hc]
        have hnm : keyOf a ∉ acc.map Prod.fst := by
          intro hmem
          exact hc ((containsKey_iff_mem _ _).mpr hmem)
        simp [List.nodup_append, h, hnm]

lemma lookupKey_of_mem_nodup : ∀ (l : List (CoordKey × ClusterData)),
    (l.map Prod.fst).Nodup → ∀ p ∈ l, lookupKey l p.1 = some p.2 := by
  intro l
  induction l with
  | nil =>
      intro _ p hp
      cases hp
  | cons q rest ih =>
      intro h p hp
      rw [List.map_cons, List.nodup_cons] at h
      rcases List.mem_cons.mp hp with he | ht
      · subst he
        simp [lookupKey, List.find?_cons_of_pos]
      · have hne : ¬ q.1 = p.1 := by
          intro he
          apply h.1
          rw [he]
          exact List.mem_map.mpr ⟨p, ht, rfl⟩
        rw [lookupKey, List.find?_cons_of_neg _ (by simpa using hne)]
        exact ih h.2 p ht

/-! ### Effect of url-deduplicated appends on a cluster record -/

lemma addArticle_latitude (cd : ClusterData) (a : LocatedArticle) :
    (addArticle cd a).latitude = cd.latitude := by
  unfold addArticle
  split <;> rfl

lemma addArticle_longitude (cd : ClusterData) (a : LocatedArticle) :
    (addArticle cd a).longitude = cd.longitude := by
  unfold addArticle
  split <;> rfl

lemma addArticle_location_name (cd : ClusterData) (a : LocatedArticle) :
    (addArticle cd a).location_name = cd.location_name := by
  unfold addArticle
  split <;> rfl

lemma addArticle_constituency (cd : ClusterData) (a : LocatedArticle) :
    (addArticle cd a).constituency = cd.constituency := by
  unfold addArticle
  split <;> rfl

lemma foldl_addArticle_latitude : ∀ (cs : List LocatedArticle) (cd : ClusterData),
    (cs.foldl addArticle cd).latitude = cd.latitude := by
  intro cs
  induction cs with
  | nil => intro cd; rfl
  | cons a rest ih => intro cd; rw [List.foldl_cons, ih, addArticle_latitude]

lemma foldl_addArticle_longitude : ∀ (cs : List LocatedArticle) (cd : ClusterData),
    (cs.foldl addArticle cd).longitude = cd.longitude := by
  intro cs
  induction cs with
  | nil => intro cd; rfl
  | cons a rest ih => intro cd; rw [List.foldl_cons, ih, addArticle_longitude]

lemma foldl_addArticle_location_name : ∀ (cs : List LocatedArticle) (cd : ClusterData),
    (cs.foldl addArticle cd).location_name = cd.location_name := by
  intro cs
  induction cs with
  | nil => intro cd; rfl
  | cons a rest ih => intro cd; rw [List.foldl_cons, ih, addArticle_location_name]

lemma foldl_addArticle_constituency : ∀ (cs : List LocatedArticle) (cd : ClusterData),
    (cs.foldl addArticle cd).constituency = cd.constituency := by
  intro cs
  induction cs with
  | nil => intro cd; rfl
  | cons a rest ih => intro cd; rw [List.foldl_cons, ih, addArticle_constituency]

lemma outOf_eq (a : LocatedArticle) : outOf a = a.article := rfl

lemma mem_addArticle_urls (cd : ClusterData) (a : LocatedArticle) (u : String) :
    u ∈ (addArticle cd a).articles.map Article.url
      ↔ u ∈ cd.articles.map Article.url ∨ u = a.article.url := by
  unfold addArticle
  by_cases h : cd.articles.any (fun x => decide (x.url = a.article.url)) = true
  · rw [if_pos h]
    constructor
    · exact Or.inl
    · rintro (hm | he)
      · exact hm
      · subst he
        rcases List.any_eq_true.mp h with ⟨x, hx, hxe⟩
        rw [decide_eq_true_eq] at hxe
        exact List.mem_map.mpr ⟨x, hx, hxe⟩
  · rw [if_neg h]
    simp [outOf_eq]

lemma addArticle_urls_nodup (cd : ClusterData) (a : LocatedArticle)
    (h : (cd.articles.map Article.url).Nodup) :
    ((addArticle cd a).articles.map Article.url).Nodup := by
  unfold addArticle
  by_cases hc : cd.articles.any (fun x => decide (x.url = a.article.url)) = true
  · rw [if_pos hc]
    exact h
  · rw [if_neg hc]
    have hna : a.article.url ∉ cd.articles.map Article.url := by
      intro hm
      apply hc
      rcases List.mem_map.mp hm with ⟨x, hx, he⟩
      exact List.any_eq_true.mpr ⟨x, hx, by simp [he]⟩
    simp [outOf_eq, List.nodup_append, h, hna]

lemma foldl_addArticle_urls_nodup : ∀ (cs : List LocatedArticle) (cd : ClusterData),
    (cd.articles.map Article.url).Nodup →
    ((cs.foldl addArticle cd).articles.map Article.url).Nodup := by
  intro cs
  induction cs with
  | nil =>
      intro cd h
      exact h
  | cons a rest ih =>
      intro cd h
      rw [List.foldl_cons]
      exact ih _ (addArticle_urls_nodup cd a h)

lemma mem_foldl_addArticle_urls : ∀ (cs : List LocatedArticle) (cd : ClusterData)
    (u : String), u ∈ ((cs.foldl addArticle cd).articles.map Article.url)
      ↔ u ∈ cd.articles.map Article.url ∨ u ∈ cs.map (fun a => a.article.url) := by
  intro cs
  induction cs with
  | nil =>
      intro cd u
      simp
  | cons a rest ih =>
      intro cd u
      rw [List.foldl_cons, ih, mem_addArticle_urls]
      simp only [List.map_cons, List.mem_cons]
      tauto

lemma mem_addArticle_articles (cd : ClusterData) (a : LocatedArticle) (x : Article)
    (h : x ∈ (addArticle cd a).articles) : x ∈ cd.articles ∨ x = a.article := by
  unfold addArticle at h
  split at h
  · exact Or.inl h
  · rw [outOf_eq] at h
    rcases List.mem_append.mp h with hm | hm
    · exact Or.inl hm
    · exact Or.inr (List.mem_singleton.mp hm)

lemma mem_foldl_addArticle_articles : ∀ (cs : List LocatedArticle) (cd : ClusterData)
    (x : Article), x ∈ (cs.foldl addArticle cd).articles →
      x ∈ cd.articles ∨ ∃ a ∈ cs, x = a.article := by
  intro cs
  induction cs with
  | nil =>
      intro cd x h
      exact Or.inl h
  | cons a rest ih =>
      intro cd x h
      rw [List.foldl_cons] at h
      rcases ih _ _ h with hm | ⟨b, hb, he⟩
      · rcases mem_addArticle_articles cd a x hm with hm' | he'
        · exact Or.inl hm'
        · exact Or.inr ⟨a, List.mem_cons_self a rest, he'⟩
      · exact Or.inr ⟨b, List.mem_cons_of_mem a hb, he⟩

/-! ### Per-cluster characterization -/

lemma groupArticles_entry (loaded : Bool) (gdf : Option (List BRow))
    (las : List LocatedArticle) (p : CoordKey × ClusterData)
    (hp : p ∈ groupArticles loaded gdf las) :
    ∃ a0 cs, contributors p.1 las = a0 :: cs
      ∧ p.2 = (a0 :: cs).foldl addArticle (newClusterData loaded gdf a0) := by
  have hnodup : ((groupArticles loaded gdf las).map Prod.fst).Nodup :=
    keys_foldl_nodup loaded gdf las [] (by simp)
  have hlook : lookupKey (groupArticles loaded gdf las) p.1 = some p.2 :=
    lookupKey_of_mem_nodup _ hnodup p hp
  have hchar : lookupKey (groupArticles loaded gdf las) p.1
      = match contributors p.1 las with
        | [] => none
        | a0 :: cs => some ((a0 :: cs).foldl addArticle
            (newClusterData loaded gdf a0)) :=
    lookupKey_foldl_none loaded gdf las [] p.1 rfl
  rw [hlook] at hchar
  cases hcon : contributors p.1 las with
  | nil =>
      rw [hcon] at hchar
      cases hchar
  | cons a0 cs =>
      rw [hcon] at hchar
      exact ⟨a0, cs, rfl, Option.some.inj hchar⟩

lemma mem_contributors (k : CoordKey) (las : List LocatedArticle)
    (a : LocatedArticle) : a ∈ contributors k las ↔ a ∈ las ∧ keyOf a = k := by
  simp [contributors]

lemma groupArticles_entry_fields (loaded : Bool) (gdf : Option (List BRow))
    (las : List LocatedArticle) (p : CoordKey × ClusterData)
    (hp : p ∈ groupArticles loaded gdf las) :
    ∃ a0 cs, contributors p.1 las = a0 :: cs
      ∧ keyOf a0 = p.1
      ∧ p.2.latitude = a0.coords.1
      ∧ p.2.longitude = a0.coords.2
      ∧ p.2.location_name = a0.location_name
      ∧ p.2.constituency
          = find_constituency_for_point loaded gdf a0.coords.1 a0.coords.2
      ∧ (p.2.articles.map Article.url).Nodup
      ∧ (∀ u, u ∈ p.2.articles.map Article.url
          ↔ u ∈ (contributors p.1 las).map (fun a => a.article.url))
      ∧ (∀ x ∈ p.2.articles, ∃ a ∈ contributors p.1 las, x = a.article) := by
  obtain ⟨a0, cs, hcon, hval⟩ := groupArticles_entry loaded gdf las p hp
  have ha0 : keyOf a0 = p.1 := by
    have : a0 ∈ contributors p.1 las := by
      rw [hcon]
      exact List.mem_cons_self a0 cs
    exact ((mem_contributors _ _ _).mp this).2
  refine ⟨a0, cs, hcon, ha0, ?_, ?_, ?_, ?_, ?_, ?_, ?_⟩
  · rw [hval, foldl_addArticle_latitude]
    rfl
  · rw [hval, foldl_addArticle_longitude]
    rfl
  · rw [hval, foldl_addArticle_location_name]
    rfl
  · rw [hval, foldl_addArticle_constituency]
    rfl
  · rw [hval]
    exact foldl_addArticle_urls_nodup _ _ (by simp [newClusterData])
  · intro u
    rw [hval, mem_foldl_addArticle_urls, hcon]
    simp [newClusterData]
  · intro x hx
    rw [hval] at hx
    rcases mem_foldl_addArticle_articles _ _ _ hx with hm | ⟨a, ha, he⟩
    · simp [newClusterData] at hm
    · exact ⟨a, by rw [hcon]; exact ha, he⟩

/-- C1: in the output of process_and_group_articles, the coordinate keys
of the clusters are pairwise distinct (so two located articles with the
same formatted key contribute to the same cluster), every located
article's url is present in the cluster of its key, no cluster contains
two articles with the same url, and article_count equals the number of
distinct urls among the located articles contributing to that cluster. -/
theorem process_clustering_invariants (oracle : GeoOracle) (loaded : Bool)
    (gdf : Option (List BRow)) (gaz : List String) (st : GeoState)
    (articles : List Article) :
    ((process_and_group_articles oracle loaded gdf gaz st articles).1.map
        (fun c => coordKey c.latitude c.longitude)).Nodup
    ∧ (∀ a ∈ (locateArticles oracle gaz st articles).1,
        ∃ c ∈ (process_and_group_articles oracle loaded gdf gaz st articles).1,
          coordKey c.latitude c.longitude = keyOf a
          ∧ a.article.url ∈ c.articles.map Article.url)
    ∧ (∀ c ∈ (process_and_group_articles oracle loaded gdf gaz st articles).1,
        (c.articles.map Article.url).Nodup)
    ∧ (∀ c ∈ (process_and_group_articles oracle loaded gdf gaz st articles).1,
        c.article_count
          = ((contributors (coordKey c.latitude c.longitude)
              (locateArticles oracle gaz st articles).1).map
              (fun a => a.article.url)).dedup.length) := by
  have hproc : (process_and_group_articles oracle loaded gdf gaz st articles).1
      = (groupArticles loaded gdf (locateArticles oracle gaz st articles).1).map
          (fun p => toCluster p.2) := rfl
  rw [hproc]
  generalize (locateArticles oracle gaz st articles).1 = las
  have hkeyeq : ∀ p ∈ groupArticles loaded gdf las,
      coordKey (toCluster p.2).latitude (toCluster p.2).longitude = p.1 := by
    intro p hp
    obtain ⟨a0, _, _, hk, hlat, hlon, _⟩ :=
      groupArticles_entry_fields loaded gdf las p hp
    show coordKey p.2.latitude p.2.longitude = p.1
    rw [hlat, hlon]
    exact hk
  refine ⟨?_, ?_, ?_, ?_⟩
  · rw [List.map_map]
    have hmapeq : (groupArticles loaded gdf las).map
        ((fun c => coordKey c.latitude c.longitude) ∘ (fun p => toCluster p.2))
        = (groupArticles loaded gdf las).map Prod.fst :=
      List.map_congr_left (fun p hp => hkeyeq p hp)
    rw [hmapeq]
    exact keys_foldl_nodup loaded gdf las [] (by simp)
  · intro a ha
    have hkmem : keyOf a ∈ (groupArticles loaded gdf las).map Prod.fst :=
      (keys_foldl_mem loaded gdf las [] (keyOf a)).mpr
        (Or.inr (List.mem_map.mpr ⟨a, ha, rfl⟩))
    rcases List.mem_map.mp hkmem with ⟨p, hp, hpk⟩
    obtain ⟨a0, cs, hcon, hk, hlat, hlon, _, _, _, hurl, _⟩ :=
      groupArticles_entry_fields loaded gdf las p hp
    refine ⟨toCluster p.2, List.mem_map.mpr ⟨p, hp, rfl⟩, ?_, ?_⟩
    · rw [hkeyeq p hp, hpk]
    · show a.article.url ∈ p.2.articles.map Article.url
      rw [hurl]
      refine List.mem_map.mpr ⟨a, ?_, rfl⟩
      rw [mem_contributors]
      exact ⟨ha, hpk.symm⟩
  · intro c hc
    rcases List.mem_map.mp hc with ⟨p, hp, hpc⟩
    obtain ⟨_, _, _, _, _, _, _, _, hnd, _, _⟩ :=
      groupArticles_entry_fields loaded gdf las p hp
    rw [← hpc]
    exact hnd
  · intro c hc
    rcases List.mem_map.mp hc with ⟨p, hp, hpc⟩
    obtain ⟨a0, cs, hcon, hk, hlat, hlon, _, _, hnd, hurl, _⟩ :=
      groupArticles_entry_fields loaded gdf las p hp
    subst hpc
    rw [hkeyeq p hp]
    show p.2.articles.length = _
    have h1 : p.2.articles.length = (p.2.articles.map Article.url).length :=
      (List.length_map _ _).symm
    have h2 : (p.2.articles.map Article.url).toFinset
        = ((contributors p.1 las).map (fun a => a.article.url)).toFinset := by
      ext u
      simp only [List.mem_toFinset]
      exact hurl u
    rw [h1, ← List.toFinset_card_of_nodup hnd, h2, List.card_toFinset]

/-! ### The instrumented grouping fold: C6 and C10 -/

lemma loggedFold_fst (loaded : Bool) (gdf : Option (List BRow)) :
    ∀ (las : List LocatedArticle) (acc : List (CoordKey × ClusterData))
      (log : List (Rat × Rat)),
      (las.foldl (groupStepLogged loaded gdf) (acc, log)).1
        = las.foldl (groupStep loaded gdf) acc := by
  intro las
  induction las with
  | nil =>
      intro acc log
      rfl
  | cons a rest ih =>
      intro acc log
      rw [List.foldl_cons, List.foldl_cons]
      simp only [groupStepLogged, groupStep]
      by_cases hc : containsKey acc (keyOf a) = true
      · rw [if_pos hc, if_pos hc]
        exact ih _ _
      · rw [if_neg hc, if_neg hc]
        exact ih _ _

lemma loggedFold_log (loaded : Bool) (gdf : Option (List BRow)) :
    ∀ (las : List LocatedArticle) (acc : List (CoordKey × ClusterData))
      (log : List (Rat × Rat)),
      log.map (fun q => coordKey q.1 q.2) = acc.map Prod.fst →
      ((las.foldl (groupStepLogged loaded gdf) (acc, log)).2).map
          (fun q => coordKey q.1 q.2)
        = ((las.foldl (groupStepLogged loaded gdf) (acc, log)).1).map Prod.fst := by
  intro las
  induction las with
  | nil =>
      intro acc log h
      exact h
  | cons a rest ih =>
      intro acc log h
      rw [List.foldl_cons]
      simp only [groupStepLogged]
      by_cases hc : containsKey acc (keyOf a) = true
      · rw [if_pos hc]
        exact ih _ _ (by rw [h, keys_updateAssoc])
      · rw [if_neg hc]
        refine ih _ _ ?_
        rw [List.map_append, h, keys_updateAssoc, List.map_append]
        rfl

/-- C6: within one grouping pass, find_constituency_for_point is called
exactly once per distinct coordinate key (the call log has one entry
per distinct key and its keys are pairwise distinct); the cluster's
constituency and location_name come from the call at cluster creation
and from the triggering (first) article of the key; extending the
located input with more articles changes only the articles list of an
existing cluster, never its latitude, longitude, location_name or
constituency. -/
theorem constituency_once_and_stable (loaded : Bool) (gdf : Option (List BRow))
    (las ext : List LocatedArticle) :
    ((groupArticlesLogged loaded gdf las).2.length
        = ((las.map keyOf).dedup).length
      ∧ ((groupArticlesLogged loaded gdf las).2.map
          (fun q => coordKey q.1 q.2)).Nodup)
    ∧ (∀ k cd, lookupKey (groupArticles loaded gdf las) k = some cd →
        ∃ a0 cs, contributors k las = a0 :: cs
          ∧ cd.constituency
              = find_constituency_for_point loaded gdf a0.coords.1 a0.coords.2
          ∧ cd.location_name = a0.location_name)
    ∧ (∀ k cd, lookupKey (groupArticles loaded gdf las) k = some cd →
        ∃ cd', lookupKey (groupArticles loaded gdf (las ++ ext)) k = some cd'
          ∧ cd'.latitude = cd.latitude
          ∧ cd'.longitude = cd.longitude
          ∧ cd'.location_name = cd.location_name
          ∧ cd'.constituency = cd.constituency) := by
  have hfst : (groupArticlesLogged loaded gdf las).1 = groupArticles loaded gdf las :=
    loggedFold_fst loaded gdf las [] []
  have hlog : ((groupArticlesLogged loaded gdf las).2).map (fun q => coordKey q.1 q.2)
      = ((groupArticlesLogged loaded gdf las).1).map Prod.fst :=
    loggedFold_log loaded gdf las [] [] rfl
  have hnodupkeys : ((groupArticles loaded gdf las).map Prod.fst).Nodup :=
    keys_foldl_nodup loaded gdf las [] (by simp)
  refine ⟨⟨?_, ?_⟩, ?_, ?_⟩
  · have h1 : (groupArticlesLogged loaded gdf las).2.length
        = ((groupArticlesLogged loaded gdf las).2.map
            (fun q => coordKey q.1 q.2)).length := (List.length_map _ _).symm
    rw [h1, hlog, hfst]
    have hset : ((groupArticles loaded gdf las).map Prod.fst).toFinset
        = (las.map keyOf).toFinset := by
      ext k
      simp only [List.mem_toFinset]
      have := keys_foldl_mem loaded gdf las [] k
      simp only [List.map_nil, List.not_mem_nil, false_or] at this
      exact this
    rw [← List.toFinset_card_of_nodup hnodupkeys, hset, List.card_toFinset]
  · rw [hlog, hfst]
    exact hnodupkeys
  · intro k cd h
    have hchar : lookupKey (groupArticles loaded gdf las) k
        = match contributors k las with
          | [] => none
          | a0 :: cs => some ((a0 :: cs).foldl addArticle
              (newClusterData loaded gdf a0)) :=
      lookupKey_foldl_none loaded gdf las [] k rfl
    rw [h] at hchar
    cases hcon : contributors k las with
    | nil =>
        rw [hcon] at hchar
        cases hchar
    | cons a0 cs =>
        rw [hcon] at hchar
        have hval := Option.some.inj hchar
        refine ⟨a0, cs, rfl, ?_, ?_⟩
        · rw [hval, foldl_addArticle_constituency]
          rfl
        · rw [hval, foldl_addArticle_location_name]
          rfl
  · intro k cd h
    have hchar : lookupKey (groupArticles loaded gdf las) k
        = match contributors k las with
          | [] => none
          | a0 :: cs => some ((a0 :: cs).foldl addArticle
              (newClusterData loaded gdf a0)) :=
      lookupKey_foldl_none loaded gdf las [] k rfl
    rw [h] at hchar
    cases hcon : contributors k las with
    | nil =>
        rw [hcon] at hchar
        cases hchar
    | cons a0 cs =>
        rw [hcon] at hchar
        have hval := Option.some.inj hchar
        have hconapp : contributors k (las ++ ext)
            = a0 :: (cs ++ contributors k ext) := by
          unfold contributors
          rw [List.filter_append]
          show contributors k las ++ contributors k ext = _
          rw [hcon]
          rfl
        have hchar2 : lookupKey (groupArticles loaded gdf (las ++ ext)) k
            = match contributors k (las ++ ext) with
              | [] => none
              | a0 :: cs => some ((a0 :: cs).foldl addArticle
                  (newClusterData loaded gdf a0)) :=
          lookupKey_foldl_none loaded gdf (las ++ ext) [] k rfl
        rw [hconapp] at hchar2
        refine ⟨(a0 :: (cs ++ contributors k ext)).foldl addArticle
            (newClusterData loaded gdf a0), hchar2, ?_, ?_, ?_, ?_⟩
        · rw [foldl_addArticle_latitude, hval, foldl_addArticle_latitude]
        · rw [foldl_addArticle_longitude, hval, foldl_addArticle_longitude]
        · rw [foldl_addArticle_location_name, hval, foldl_addArticle_location_name]
        · rw [foldl_addArticle_constituency, hval, foldl_addArticle_constituency]

/-- C10: a cluster's latitude and longitude fields are the raw,
unrounded coordinates of the first located article of its key; only
the grouping key is rounded, so every contributor (including later
ones whose raw coordinates may differ beyond the fifth decimal) agrees
with the cluster's reported coordinates only up to the formatted key. -/
theorem cluster_reports_first_raw_coords (loaded : Bool) (gdf : Option (List BRow))
    (las : List LocatedArticle) (k : CoordKey) (cd : ClusterData)
    (h : lookupKey (groupArticles loaded gdf las) k = some cd) :
    ∃ a0 cs, contributors k las = a0 :: cs
      ∧ cd.latitude = a0.coords.1
      ∧ cd.longitude = a0.coords.2
      ∧ ∀ a ∈ contributors k las,
          coordKey a.coords.1 a.coords.2 = coordKey cd.latitude cd.longitude := by
  have hchar : lookupKey (groupArticles loaded gdf las) k
      = match contributors k las with
        | [] => none
        | a0 :: cs => some ((a0 :: cs).foldl addArticle
            (newClusterData loaded gdf a0)) :=
    lookupKey_foldl_none loaded gdf las [] k rfl
  rw [h] at hchar
  cases hcon : contributors k las with
  | nil =>
      rw [hcon] at hchar
      cases hchar
  | cons a0 cs =>
      rw [hcon] at hchar
      have hval := Option.some.inj hchar
      have hlat : cd.latitude = a0.coords.1 := by
        rw [hval, foldl_addArticle_latitude]
        rfl
      have hlon : cd.longitude = a0.coords.2 := by
        rw [hval, foldl_addArticle_longitude]
        rfl
      have hk0 : keyOf a0 = k := by
        have : a0 ∈ contributors k las := by
          rw [hcon]
          exact List.mem_cons_self a0 cs
        exact ((mem_contributors _ _ _).mp this).2
      refine ⟨a0, cs, rfl, hlat, hlon, ?_⟩
      intro a ha
      have hamem : a ∈ contributors k las := by
        rw [hcon]
        exact ha
      have hka : keyOf a = k := ((mem_contributors _ _ _).mp hamem).2
      show keyOf a = _
      rw [hka, hlat, hlon]
      exact hk0.symm

/-! ### The resolution pass: C7 -/

lemma tryGeocodeLocations_mem (oracle : GeoOracle) : ∀ (locs : List String)
    (st : GeoState) (nm : String) (c : Coords),
    (tryGeocodeLocations oracle locs st).1 = some (nm, c) → nm ∈ locs := by
  intro locs
  induction locs with
  | nil =>
      intro st nm c h
      simp [tryGeocodeLocations] at h
  | cons loc rest ih =>
      intro st nm c h
      rw [tryGeocodeLocations] at h
      rcases hg : geocode_location oracle loc 1 3 st with ⟨r, st'⟩
      rw [hg] at h
      cases r with
      | some cc =>
          have h' : (loc, cc) = (nm, c) := Option.some.inj h
          have hloc : loc = nm := congrArg Prod.fst h'
          rw [← hloc]
          exact List.mem_cons_self loc rest
      | none =>
          exact List.mem_cons_of_mem _ (ih st' nm c h)

lemma resolveArticle_some (oracle : GeoOracle) (gaz : List String) (st : GeoState)
    (a : Article) (la : LocatedArticle) (st' : GeoState)
    (h : resolveArticle oracle gaz st a = (some la, st')) :
    la.article = a
    ∧ la.location_name ∈ extract_locations_from_text (articleText a) gaz := by
  rw [resolveArticle] at h
  rcases ht : tryGeocodeLocations oracle
      (extract_locations_from_text (articleText a) gaz) st with ⟨r, st2⟩
  rw [ht] at h
  cases r with
  | some p =>
      rcases p with ⟨nm, c⟩
      simp only [Prod.mk.injEq, Option.some.injEq] at h
      obtain ⟨hla, _⟩ := h
      constructor
      · rw [← hla]
      · rw [← hla]
        exact tryGeocodeLocations_mem oracle _ st nm c (by rw [ht])
  | none =>
      simp at h

lemma locateArticles_sublist (oracle : GeoOracle) (gaz : List String) :
    ∀ (arts : List Article) (st : GeoState),
      ((locateArticles oracle gaz st arts).1.map
        (fun la => la.article)).Sublist arts := by
  intro arts
  induction arts with
  | nil =>
      intro st
      simp [locateArticles]
  | cons a rest ih =>
      intro st
      rw [locateArticles]
      rcases hr : resolveArticle oracle gaz st a with ⟨ro, st'⟩
      cases ro with
      | some la =>
          have hla := (resolveArticle_some oracle gaz st a la st' hr).1
          simp only [List.map_cons]
          rw [hla]
          exact List.Sublist.cons₂ a (ih st')
      | none =>
          exact List.Sublist.cons a (ih st')

lemma locateArticles_names (oracle : GeoOracle) (gaz : List String) :
    ∀ (arts : List Article) (st : GeoState) (la : LocatedArticle),
      la ∈ (locateArticles oracle gaz st arts).1 →
      la.location_name ∈ extract_locations_from_text (articleText la.article) gaz := by
  intro arts
  induction arts with
  | nil =>
      intro st la h
      simp [locateArticles] at h
  | cons a rest ih =>
      intro st la h
      rw [locateArticles] at h
      rcases hr : resolveArticle oracle gaz st a with ⟨ro, st'⟩
      rw [hr] at h
      cases ro with
      | some la' =>
          simp only [List.mem_cons] at h
          rcases h with he | hm
          · obtain ⟨ha, hn⟩ := resolveArticle_some oracle gaz st a la' st' hr
            subst he
            rw [ha]
            exact hn
          · exact ih st' la hm
      | none =>
          exact ih st' la h

lemma locateArticles_no_match (oracle : GeoOracle) (gaz : List String) :
    ∀ (arts : List Article) (st : GeoState),
      (∀ a ∈ arts, extract_locations_from_text (articleText a) gaz = []) →
      locateArticles oracle gaz st arts = ([], st) := by
  intro arts
  induction arts with
  | nil =>
      intro st _
      rfl
  | cons a rest ih =>
      intro st h
      have he := h a (List.mem_cons_self a rest)
      have hres : resolveArticle oracle gaz st a = (none, st) := by
        rw [resolveArticle, he]
        rfl
      rw [locateArticles, hres]
      exact ih st (fun b hb => h b (List.mem_cons_of_mem a hb))

/-- C7: the pipeline is a total function returning a (possibly empty)
cluster list — articles that fail to resolve are silently dropped (the
located articles form a subsequence of the input), every located
article's winning name came from its own gazetteer scan, every output
article is an input article, and when nothing matches the output is
the empty cluster list with the state unchanged, not an error. -/
theorem process_total_and_drops (oracle : GeoOracle) (loaded : Bool)
    (gdf : Option (List BRow)) (gaz : List String) (st : GeoState)
    (articles : List Article) :
    (((locateArticles oracle gaz st articles).1.map
        (fun la => la.article)).Sublist articles)
    ∧ (∀ la ∈ (locateArticles oracle gaz st articles).1,
        la.location_name ∈ extract_locations_from_text (articleText la.article) gaz)
    ∧ (∀ c ∈ (process_and_group_articles oracle loaded gdf gaz st articles).1,
        ∀ x ∈ c.articles, x ∈ articles)
    ∧ ((∀ a ∈ articles, extract_locations_from_text (articleText a) gaz = []) →
        process_and_group_articles oracle loaded gdf gaz st articles = ([], st)) := by
  refine ⟨locateArticles_sublist oracle gaz articles st,
          fun la h => locateArticles_names oracle gaz articles st la h, ?_, ?_⟩
  · intro c hc x hx
    have hproc : (process_and_group_articles oracle loaded gdf gaz st articles).1
        = (groupArticles loaded gdf (locateArticles oracle gaz st articles).1).map
            (fun p => toCluster p.2) := rfl
    rw [hproc] at hc
    rcases List.mem_map.mp hc with ⟨p, hp, hpc⟩
    obtain ⟨_, _, _, _, _, _, _, _, _, _, hart⟩ :=
      groupArticles_entry_fields loaded gdf _ p hp
    subst hpc
    rcases hart x hx with ⟨b, hbcon, he⟩
    have hbla : b ∈ (locateArticles oracle gaz st articles).1 :=
      ((mem_contributors _ _ _).mp hbcon).1
    have hmm : b.article ∈ (locateArticles oracle gaz st articles).1.map
        (fun la => la.article) := List.mem_map.mpr ⟨b, hbla, rfl⟩
    rw [he]
    exact (locateArticles_sublist oracle gaz articles st).subset hmm
  · intro hall
    have hloc := locateArticles_no_match oracle gaz articles st hall
    have hdef : process_and_group_articles oracle loaded gdf gaz st articles
        = ((groupArticles loaded gdf
              (locateArticles oracle gaz st articles).1).map
            (fun p => toCluster p.2),
           (locateArticles oracle gaz st articles).2) := rfl
    rw [hdef, hloc]
    rfl

/-! ### Concrete runs used as witnesses (the end-to-end scenario of the
spec: two articles mentioning Orchard Road and a stub geocoder) -/

def wOracle : GeoOracle := fun _ _ => .found (mkRat 13048 10000) (mkRat 1038318 10000)

def wGaz : List String := ["Orchard Road"]

def wSt : GeoState := ⟨[], 0⟩

def wArticleA : Article := ⟨"MRT delay near Orchard Road", "u1", "", "X"⟩

def wArticleB : Article := ⟨"Event at Orchard Road tonight", "u2", "", "Y"⟩

def wLocA : LocatedArticle :=
  ⟨wArticleA, "Orchard Road", (mkRat 13048 10000, mkRat 1038318 10000)⟩

def wLocB : LocatedArticle :=
  ⟨wArticleB, "Orchard Road", (mkRat 13048 10000, mkRat 1038318 10000)⟩

/-- Witness for C1 on the spec's end-to-end scenario: the first located
article's url lands in the cluster carrying its coordinate key. -/
theorem process_clustering_invariants_witness :
    ∃ c ∈ (process_and_group_articles wOracle false none wGaz wSt
        [wArticleA, wArticleB]).1,
      coordKey c.latitude c.longitude = keyOf wLocA
      ∧ wLocA.article.url ∈ c.articles.map Article.url :=
  (process_clustering_invariants wOracle false none wGaz wSt
    [wArticleA, wArticleB]).2.1 wLocA
    (by decide)

def wCD : ClusterData :=
  ⟨mkRat 13048 10000, mkRat 1038318 10000, "Orchard Road", none, [wArticleA, wArticleB]⟩

/-- Witness for C6 at the concrete two-article run: the cluster's
constituency and display name come from the first contributor. -/
theorem constituency_once_and_stable_witness :
    ∃ a0 cs, contributors (keyOf wLocA) [wLocA, wLocB] = a0 :: cs
      ∧ wCD.constituency
          = find_constituency_for_point false none a0.coords.1 a0.coords.2
      ∧ wCD.location_name = a0.location_name :=
  (constituency_once_and_stable false none [wLocA, wLocB] []).2.1
    (keyOf wLocA) wCD (by decide)

def wArticleZ : Article := ⟨"hello", "u9", "", "Z"⟩

/-- Witness for C7: an input with no gazetteer match yields the empty
cluster list with the state untouched. -/
theorem process_total_and_drops_witness :
    process_and_group_articles wOracle false none wGaz wSt [wArticleZ]
      = ([], wSt) :=
  (process_total_and_drops wOracle false none wGaz wSt [wArticleZ]).2.2.2
    (by decide)

def wLocC : LocatedArticle :=
  ⟨⟨"t1", "u1", "", "X"⟩, "P", (mkRat 123456701 100000000, 103)⟩

def wLocD : LocatedArticle :=
  ⟨⟨"t2", "u2", "", "Y"⟩, "P", (mkRat 123456709 100000000, 103)⟩

def wCD10 : ClusterData :=
  ⟨mkRat 123456701 100000000, 103, "P", none,
   [⟨"t1", "u1", "", "X"⟩, ⟨"t2", "u2", "", "Y"⟩]⟩

/-- Witness for C10: two contributors whose raw latitudes differ beyond
the fifth decimal share a cluster, and the cluster reports the first
one's raw latitude. -/
theorem cluster_reports_first_raw_coords_witness :
    (∃ a0 cs, contributors (keyOf wLocC) [wLocC, wLocD] = a0 :: cs
      ∧ wCD10.latitude = a0.coords.1
      ∧ wCD10.longitude = a0.coords.2
      ∧ ∀ a ∈ contributors (keyOf wLocC) [wLocC, wLocD],
          coordKey a.coords.1 a.coords.2
            = coordKey wCD10.latitude wCD10.longitude)
    ∧ wLocD.coords.1 ≠ wCD10.latitude := by
  constructor
  · exact cluster_reports_first_raw_coords false none [wLocC, wLocD]
      (keyOf wLocC) wCD10 (by decide)
  · decide

end NewsScraper
